import Mathlib

/-!
# A shallow embedding of the CDS `ArchiveBuilder` core

This file models the object-graph capture and two-pass pointer-relocation
engine of `src/hotspot/share/cds/archiveBuilder.cpp`:

* the follow-mode classifier (`get_follow_mode`, `is_excluded`);
* the deduplicating source-object table (`gather_one_source_obj`,
  `record_regenerated_object`, `get_buffered_addr`);
* per-region source-object lists with their pointer-bitmap intervals
  (`SourceObjList::append`, `SourceObjList::remember_embedded_pointer`);
* pass 1, per-object embedded-pointer relocation
  (`RelocateEmbeddedPointers::do_bit`);
* pass 2, whole-buffer relocation and bitmap compaction
  (`RelocateBufferToRequested::do_bit` / `doit`);
* the deterministic sort of gathered symbols and classes;
* the capacity-estimate verification and the placement check of
  `reserve_buffer`.

Addresses are modelled as natural numbers (`0` plays the role of `nullptr`),
signed address deltas as integers, and fatal conditions (failed `assert`s,
`MetaspaceShared::unrecoverable_writing_error()`) as `Except BuildError`.
Definitions whose C++ bodies live in headers or sibling files that are not
part of this translation unit are marked `Modelled from the spec:` in their
doc comments.
-/

namespace ArchiveBuilderModel

/-- Word size in bytes of a 64-bit platform: `sizeof(address)` / `BytesPerWord`. -/
def wordSize : Nat := 8

/-- Modelled from the spec: `align_up(n, a)` (utilities/align.hpp, not under
src/) rounds `n` up to the next multiple of the alignment `a`. -/
def alignUp (n a : Nat) : Nat := ((n + a - 1) / a) * a

/-- The fatal failure conditions of the builder.  All of them abort the build
(`assert` in a debug VM, or `MetaspaceShared::unrecoverable_writing_error()`). -/
inductive BuildError where
  /-- `get_buffered_addr`: "src_addr ... is used but has not been archived". -/
  | unresolved_source (src_addr : Nat)
  /-- a failed fatal assertion, with the assertion's message -/
  | assert_failed (msg : String)
  /-- `report_out_of_space`: a region allocation exceeded the reservation -/
  | out_of_space (region_name : String) (needed_bytes : Nat)
  /-- `verify_estimate_size`: "Estimate is too small" -/
  | estimate_too_small (which : String)
  /-- `reserve_buffer`: "SharedBaseAddress is too high. Please rerun java
  -Xshare:dump with a lower value" -/
  | shared_base_too_high (requested_bottom requested_top static_bottom : Nat)
deriving DecidableEq, Repr

/-- `ArchiveBuilder::FollowMode` (header enum): what to do with a discovered
source object. -/
inductive FollowMode where
  | point_to_it | set_to_null | make_a_copy
deriving DecidableEq, Repr

/-- The `MetaspaceObj::Type` tags that `archiveBuilder.cpp` dispatches on. -/
inductive MsoType where
  | ClassType | SymbolType | MethodDataType | MethodCountersType
  | MethodType | ConstMethodType | ConstantPoolType | ConstantPoolCacheType
  | OtherType
deriving DecidableEq, Repr

/-- The coarse classification of a `Klass` used by `ArchiveBuilder::is_excluded`. -/
inductive KlassKind where
  | instanceKlass | objArrayKlass | typeArrayKlass
deriving DecidableEq, Repr

/-- What the builder can observe about a `Klass` living at some address:
its kind and (for object arrays) its `bottom_klass`. -/
structure KlassDesc where
  kind : KlassKind
  bottom : Nat
deriving DecidableEq, Repr

/-- The external collaborators consulted by the gathering phase: the
pre-existing-archive locator, the exclusion predicate, the klass layout
oracle, and the regenerated-classes table.  These are interfaces consumed by
`archiveBuilder.cpp`, modelled as opaque-to-the-builder functions. -/
structure BuildEnv where
  /-- `DynamicDumpSharedSpaces`: this build extends a prior static archive. -/
  DynamicDumpSharedSpaces : Bool
  /-- `MetaspaceShared::is_in_shared_metaspace(obj)` -/
  is_in_shared_metaspace : Nat → Bool
  /-- `SystemDictionaryShared::is_excluded_class(ik)` -/
  sysdict_excluded : Nat → Bool
  /-- what `Klass` lives at an address (for `is_excluded`'s case split) -/
  klass_of : Nat → KlassDesc
  /-- `RegeneratedClasses::has_been_regenerated(addr)` -/
  has_been_regenerated : Nat → Bool

/-- `ArchiveBuilder::is_excluded(Klass*)` (lines 515-531): instance klasses ask
the system dictionary; object-array klasses are always excluded in a dynamic
dump, otherwise they follow their bottom klass; all other klasses are kept. -/
def is_excluded (env : BuildEnv) (klass : Nat) : Bool :=
  let kd := env.klass_of klass
  if kd.kind = KlassKind.instanceKlass then
    env.sysdict_excluded klass
  else if kd.kind = KlassKind.objArrayKlass then
    if env.DynamicDumpSharedSpaces then
      true
    else
      let bottom := kd.bottom
      if (env.klass_of bottom).kind = KlassKind.instanceKlass then
        env.sysdict_excluded bottom
      else
        false
  else
    false

/-- One discovered reference, as presented by the external `MetaspaceClosure`
walker: `ref->obj()` (the referenced object, `0` = null), its
`MetaspaceObj` type, `ref->enclosing_obj()` (`0` = none), `ref->addr()`
(the address of the pointer field, `mpp`, with `*mpp == obj`), and
`ref->size()` in words. -/
structure Ref where
  obj : Nat
  msotype : MsoType
  enclosing_obj : Nat
  field_addr : Nat
  size_words : Nat
deriving DecidableEq, Repr

/-- `ArchiveBuilder::get_follow_mode` (lines 533-554): objects already inside
the shared metaspace are pointed to; `MethodData`/`MethodCounters` and
excluded classes are set to null; everything else is copied. -/
def get_follow_mode (env : BuildEnv) (ref : Ref) : FollowMode :=
  let obj := ref.obj
  if env.is_in_shared_metaspace obj then
    FollowMode.point_to_it
  else if ref.msotype = MsoType.MethodDataType ∨ ref.msotype = MsoType.MethodCountersType then
    FollowMode.set_to_null
  else
    if ref.msotype = MsoType.ClassType ∧ is_excluded env ref.obj then
      FollowMode.set_to_null
    else
      FollowMode.make_a_copy

/-- `ArchiveBuilder::SourceObjInfo` (header): one entry of the source-object
table.  `buffered_addr = 0` means "not yet placed". -/
structure SourceObjInfo where
  source_addr : Nat
  size_in_bytes : Nat
  msotype : MsoType
  read_only : Bool
  follow_mode : FollowMode
  buffered_addr : Nat
  ptrmap_start : Nat
  ptrmap_end : Nat
deriving DecidableEq, Repr

/-- `SourceObjInfo::should_copy()`: only `make_a_copy` objects get bytes in a region. -/
def SourceObjInfo.should_copy (s : SourceObjInfo) : Bool :=
  s.follow_mode = FollowMode.make_a_copy

/-- Modelled from the spec: the `SourceObjInfo` creation constructor in the
builder's header (not under src/): a fresh table entry for a newly discovered
reference, with `byte_size` fixed at capture time from the object's declared
kind (`ref->size()` words) and no buffered address or bitmap interval yet. -/
def SourceObjInfo.ofRef (ref : Ref) (read_only : Bool) (follow : FollowMode) : SourceObjInfo :=
  { source_addr := ref.obj, size_in_bytes := ref.size_words * wordSize,
    msotype := ref.msotype, read_only := read_only, follow_mode := follow,
    buffered_addr := 0, ptrmap_start := 0, ptrmap_end := 0 }

/-- The source-object table `_src_obj_table`, as an association list from
source address to entry, in insertion order. -/
abbrev ObjTable := List (Nat × SourceObjInfo)

/-- Table lookup (`_src_obj_table.get(addr)`). -/
def tableGet : ObjTable → Nat → Option SourceObjInfo
  | [], _ => none
  | (k, v) :: rest, a => if k = a then some v else tableGet rest a

/-- In-place update of an existing entry (the C++ table hands out a pointer to
the stored entry, through which `SourceObjList::append` later assigns the
bitmap interval). -/
def tableSet : ObjTable → Nat → SourceObjInfo → ObjTable
  | [], _, _ => []
  | (k, v) :: rest, a, v' =>
    if k = a then (k, v') :: rest else (k, v) :: tableSet rest a v'

/-- Modelled from the spec: the object table is "populated exactly once per
distinct `source_address`".  `put_if_absent` (ResourceHashtable, not under
src/) returns the existing entry untouched when the key is present, and
inserts the new entry otherwise; the `Bool` is the `created` out-parameter. -/
def put_if_absent (t : ObjTable) (a : Nat) (v : SourceObjInfo) :
    SourceObjInfo × Bool × ObjTable :=
  match tableGet t a with
  | some e => (e, false, t)
  | none => (v, true, t ++ [(a, v)])

/-- `ArchiveBuilder::get_buffered_addr` (lines 679-685): resolve a source
address through the table; fatal if the address was never archived. -/
def get_buffered_addr (t : ObjTable) (src_addr : Nat) : Except BuildError Nat :=
  match tableGet t src_addr with
  | some p => Except.ok p.buffered_addr
  | none => Except.error (BuildError.unresolved_source src_addr)

/-- `ArchiveBuilder::SourceObjList`: the per-region ordered object list, its
running logical byte extent `_total_bytes`, and the region's pointer bitmap
(`marks` is the set of set bit indices; `ptrmap_size` is the backing
`CHeapBitMap`'s current capacity in bits). -/
structure SourceObjList where
  objs : List Nat
  total_bytes : Nat
  marks : List Nat
  ptrmap_size : Nat
deriving DecidableEq, Repr

/-- A fresh `SourceObjList` (constructor, line 63: the bitmap starts with
`16 * K` bits and the object list empty). -/
def SourceObjList.empty : SourceObjList :=
  { objs := [], total_bytes := 0, marks := [], ptrmap_size := 16 * 1024 }

/-- `SourceObjList::append` (lines 72-86): record the object for copying and
reserve its pointer-bitmap interval: `ptrmap_start = _total_bytes / word`,
then `_total_bytes` grows by the object's size aligned up to the word size,
and `ptrmap_end` is the new `_total_bytes / word`; the backing bitmap doubles
past the needed size when exhausted.  Returns the updated list together with
the reserved `[start, end)` interval (which the C++ code stores into the
`SourceObjInfo` through the pointer it was handed). -/
def SourceObjList.append (l : SourceObjList) (src_addr : Nat) (size_in_bytes : Nat) :
    SourceObjList × Nat × Nat :=
  let start := l.total_bytes / wordSize
  let total := alignUp (l.total_bytes + size_in_bytes) wordSize
  let e := total / wordSize
  let sz := if l.ptrmap_size ≤ e then (e + 1) * 2 else l.ptrmap_size
  ({ objs := l.objs ++ [src_addr], total_bytes := total, marks := l.marks, ptrmap_size := sz },
   start, e)

/-- `SourceObjList::remember_embedded_pointer` (lines 88-105): mark the bit
`ptrmap_start + field_offset / word` for a pointer field of `info` (the
enclosing object) discovered at `ref.field_addr`.  The guards are the
function's assertions: interval sanity, a non-null field value, and a
word-aligned field offset inside the object's byte extent. -/
def SourceObjList.remember_embedded_pointer (l : SourceObjList) (info : SourceObjInfo)
    (ref : Ref) : Except BuildError SourceObjList :=
  if info.ptrmap_start < l.total_bytes ∧ info.ptrmap_end ≤ l.total_bytes ∧
     ref.obj ≠ 0 ∧
     info.source_addr ≤ ref.field_addr ∧
     ref.field_addr - info.source_addr + wordSize ≤ info.size_in_bytes ∧
     (ref.field_addr - info.source_addr) % wordSize = 0 then
    let idx := info.ptrmap_start + (ref.field_addr - info.source_addr) / wordSize
    Except.ok { l with marks := idx :: l.marks }
  else
    Except.error (BuildError.assert_failed "remember_embedded_pointer")

/-- The gathering phase's state: the deduplicating table and the two region
object lists. -/
structure GatherState where
  table : ObjTable
  rw_src_objs : SourceObjList
  ro_src_objs : SourceObjList
deriving DecidableEq, Repr

/-- `ArchiveBuilder::remember_embedded_pointer_in_enclosing_obj`
(lines 467-504): if the enclosing object is known and will be copied, mark
the pointer's bit in its region's bitmap; entries of
`point_to_it`/`set_to_null` type are not copied, so their pointers need no
bookkeeping. -/
def remember_embedded_pointer_in_enclosing_obj (st : GatherState) (ref : Ref) :
    Except BuildError GatherState :=
  if ref.enclosing_obj = 0 then
    Except.ok st
  else
    match tableGet st.table ref.enclosing_obj with
    | none => Except.ok st
    | some src_info =>
      if src_info.should_copy then
        if src_info.read_only then
          (st.ro_src_objs.remember_embedded_pointer src_info ref).map
            (fun l => { st with ro_src_objs := l })
        else
          (st.rw_src_objs.remember_embedded_pointer src_info ref).map
            (fun l => { st with rw_src_objs := l })
      else
        Except.ok st

/-- `ArchiveBuilder::gather_one_source_obj` (lines 412-453): skip null and
regenerated objects; record the embedded pointer in the enclosing object;
deduplicate through `put_if_absent`; on first discovery of a to-be-copied
object, append it to its region's list (which reserves its bitmap interval,
written back into the table entry).  The returned `Bool` tells the walker
whether to recurse into the object.  (The debug-only assertion that a
`Method` of a regenerated holder is never archived is omitted: it inspects
`Method` internals that are external to this translation unit.) -/
def gather_one_source_obj (env : BuildEnv) (st : GatherState) (ref : Ref)
    (read_only : Bool) : Except BuildError (GatherState × Bool) :=
  if ref.obj = 0 then
    Except.ok (st, false)
  else if env.has_been_regenerated ref.obj then
    -- No need to copy it. We will later relocate it to point to the regenerated klass/method.
    Except.ok (st, false)
  else
    match remember_embedded_pointer_in_enclosing_obj st ref with
    | Except.error e => Except.error e
    | Except.ok st₁ =>
      let follow_mode := get_follow_mode env ref
      let src_info := SourceObjInfo.ofRef ref read_only follow_mode
      let pct := put_if_absent st₁.table ref.obj src_info
      let p := pct.1
      let created := pct.2.1
      let table' := pct.2.2
      if p.read_only ≠ src_info.read_only then
        Except.error (BuildError.assert_failed "read_only must match")
      else if created ∧ p.should_copy then
        if read_only then
          let ase := st₁.ro_src_objs.append ref.obj p.size_in_bytes
          let p' := { p with ptrmap_start := ase.2.1, ptrmap_end := ase.2.2 }
          let st₂ := { st₁ with table := tableSet table' ref.obj p', ro_src_objs := ase.1 }
          Except.ok (st₂, true)
        else
          let ase := st₁.rw_src_objs.append ref.obj p.size_in_bytes
          let p' := { p with ptrmap_start := ase.2.1, ptrmap_end := ase.2.2 }
          let st₂ := { st₁ with table := tableSet table' ref.obj p', rw_src_objs := ase.1 }
          Except.ok (st₂, true)
      else
        Except.ok ({ st₁ with table := table' }, false)

/-- Modelled from the spec: `SourceObjInfo`'s second creation constructor
(header, not under src/), used for regenerated objects: the entry for the
original object aliases the regenerated object's buffered address, so that
both resolve to the same buffered location. -/
def SourceObjInfo.ofRegenerated (orig_src_obj : Nat) (p : SourceObjInfo) : SourceObjInfo :=
  { source_addr := orig_src_obj, size_in_bytes := p.size_in_bytes,
    msotype := p.msotype, read_only := p.read_only, follow_mode := p.follow_mode,
    buffered_addr := p.buffered_addr, ptrmap_start := p.ptrmap_start,
    ptrmap_end := p.ptrmap_end }

/-- `ArchiveBuilder::record_regenerated_object` (lines 455-464): record that
`orig_src_obj` has been replaced by `regen_src_obj`; fatal if the regenerated
object was never dumped, or if the original had itself been archived. -/
def record_regenerated_object (t : ObjTable) (orig_src_obj regen_src_obj : Nat) :
    Except BuildError ObjTable :=
  match tableGet t regen_src_obj with
  | none => Except.error (BuildError.assert_failed "regenerated object should always be dumped")
  | some p =>
    let orig_src_info := SourceObjInfo.ofRegenerated orig_src_obj p
    let pct := put_if_absent t orig_src_obj orig_src_info
    if pct.2.1 then
      Except.ok pct.2.2
    else
      Except.error (BuildError.assert_failed "we should not have archived the original copy")

/-! ## Deterministic sorting of the gathered roots

`gather_klasses_and_symbols` (lines 241-267) collects the gathered symbols and
klasses into auxiliary arrays and, for a static (`DumpSharedSpaces`) dump,
sorts them deterministically before the copy phase.  Symbols are modelled by
their (unique, monotonically assigned) addresses; a klass is modelled by its
own address plus the address of its interned name `Symbol`
(`Symbol::fast_compare` orders symbols by that address). -/

/-- A gathered `Klass*`: its address and its name symbol. -/
structure KlassRec where
  addr : Nat
  name : Nat
deriving DecidableEq, Repr

/-- Modelled from the spec: `GrowableArray::sort` (not under src/) is a
comparison sort; `sort_symbols_and_fix_hash` (lines 279-287) sorts `_symbols`
with `compare_symbols_by_address` (ascending source address). -/
def sort_symbols (l : List Nat) : List Nat :=
  List.insertionSort (fun a b => a ≤ b) l

/-- Modelled from the spec: `sort_klasses` (lines 293-296) sorts `_klasses`
with `compare_klass_by_name` (`name()->fast_compare`, i.e. by the address of
the interned name symbol). -/
def sort_klasses (l : List KlassRec) : List KlassRec :=
  List.insertionSort (fun a b => a.name ≤ b.name) l

/-! ## Pass 1: per-object embedded-pointer relocation -/

/-- The buffer during relocation: the 64-bit word stored at each (word-aligned)
buffer byte address, together with `ArchivePtrMarker`'s pointer bitmap
(`global_marks` = the set bit indices; bit `i` covers buffer word `i`). -/
structure BufferState where
  mem : Nat → Nat
  global_marks : List Nat

/-- Modelled from the spec: `ArchivePtrMarker::set_and_mark_pointer`
(archiveUtils, not under src/) overwrites the field in place and keeps/sets
the pointer-bitmap bit of that buffer location, so it stays meaningful for
pass 2. -/
def set_and_mark_pointer (buffer_bottom : Nat) (st : BufferState) (ptr_loc v : Nat) :
    BufferState :=
  { mem := fun a => if a = ptr_loc then v else st.mem a,
    global_marks := ((ptr_loc - buffer_bottom) / wordSize) :: st.global_marks }

/-- `RelocateEmbeddedPointers::do_bit` (lines 115-128): for the marked bit
`bit_offset` of an object whose interval starts at `start_idx` and whose copy
sits at `buffered_obj`, read the old (source-space) pointer, resolve it
through the table, and overwrite the field, keeping its bitmap bit set. -/
def RelocateEmbeddedPointers.do_bit (table : ObjTable) (buffer_bottom : Nat)
    (buffered_obj : Nat) (start_idx : Nat) (st : BufferState) (bit_offset : Nat) :
    Except BuildError BufferState :=
  let field_offset := (bit_offset - start_idx) * wordSize
  let ptr_loc := buffered_obj + field_offset
  let old_p := st.mem ptr_loc
  match get_buffered_addr table old_p with
  | Except.error e => Except.error e
  | Except.ok new_p => Except.ok (set_and_mark_pointer buffer_bottom st ptr_loc new_p)

/-- The ascending list of marked bits of a region bitmap inside `[s, e)`
(`BitMap::iterate(&relocator, start, end)`). -/
def bitsInRange (marks : List Nat) (s e : Nat) : List Nat :=
  (List.range e).filter (fun i => decide (s ≤ i ∧ i ∈ marks))

/-- `SourceObjList::relocate` (lines 130-138): walk the marked bits of one
object's interval in ascending order, relocating each embedded pointer. -/
def SourceObjList.relocate (l : SourceObjList) (table : ObjTable) (buffer_bottom : Nat)
    (info : SourceObjInfo) (st : BufferState) : Except BuildError BufferState :=
  (bitsInRange l.marks info.ptrmap_start info.ptrmap_end).foldlM
    (RelocateEmbeddedPointers.do_bit table buffer_bottom info.buffered_addr info.ptrmap_start)
    st

/-! ## Pass 2: whole-buffer relocation (`RelocateBufferToRequested`) -/

/-- The four coordinate spaces and their bounds, as held by the builder when
`relocate_to_requested` runs. -/
structure RelocConfig where
  /-- `DumpSharedSpaces` (a static dump); otherwise `DynamicDumpSharedSpaces`. -/
  staticDump : Bool
  buffer_bottom : Nat
  buffer_top : Nat
  requested_static_archive_bottom : Nat
  requested_static_archive_top : Nat
  mapped_static_archive_bottom : Nat
  mapped_static_archive_top : Nat
  requested_dynamic_archive_bottom : Nat
  requested_dynamic_archive_top : Nat

/-- `_buffer_to_requested_delta = my_archive_requested_bottom - _buffer_bottom`
(line 365): the requested bottom of the archive being written is the static
bottom for a static dump and the dynamic bottom for a dynamic dump. -/
def RelocConfig.buffer_to_requested_delta (c : RelocConfig) : Int :=
  if c.staticDump then
    (c.requested_static_archive_bottom : Int) - (c.buffer_bottom : Int)
  else
    (c.requested_dynamic_archive_bottom : Int) - (c.buffer_bottom : Int)

/-- `_mapped_to_requested_static_archive_delta` (line 848). -/
def RelocConfig.mapped_to_requested_static_archive_delta (c : RelocConfig) : Int :=
  (c.requested_static_archive_bottom : Int) - (c.mapped_static_archive_bottom : Int)

/-- Modelled from the spec: `is_in_buffer_space` (header, not under src/) —
each coordinate space is a contiguous `[bottom, top)` span. -/
def RelocConfig.is_in_buffer_space (c : RelocConfig) (p : Nat) : Bool :=
  decide (c.buffer_bottom ≤ p ∧ p < c.buffer_top)

/-- Modelled from the spec: `is_in_mapped_static_archive` (header, not under src/). -/
def RelocConfig.is_in_mapped_static_archive (c : RelocConfig) (p : Nat) : Bool :=
  decide (c.mapped_static_archive_bottom ≤ p ∧ p < c.mapped_static_archive_top)

/-- Modelled from the spec: `is_in_requested_static_archive` (header, not under src/). -/
def RelocConfig.is_in_requested_static_archive (c : RelocConfig) (p : Nat) : Bool :=
  decide (c.requested_static_archive_bottom ≤ p ∧ p < c.requested_static_archive_top)

/-- `*p += delta` on an address: signed delta added to an unsigned pointer. -/
def addDelta (v : Nat) (d : Int) : Nat := ((v : Int) + d).toNat

/-- The state iterated over by `RelocateBufferToRequested`: the buffer words,
`ArchivePtrMarker::ptrmap()` (`bits`, indexed by word offset from the buffer
bottom), and `_max_non_null_offset`. -/
structure PtrmapState where
  mem : Nat → Nat
  bits : List Bool
  max_non_null_offset : Nat

/-- The buffer byte address covered by ptrmap bit `offset`. -/
def RelocConfig.locOf (c : RelocConfig) (offset : Nat) : Nat :=
  c.buffer_bottom + offset * wordSize

/-- `RelocateBufferToRequested::do_bit` (lines 861-887): a null pointer's bit
is cleared; a pointer into the buffer is adjusted by the buffer-to-requested
delta; during a dynamic dump a pointer into the mapped static archive is
adjusted by the mapped-to-requested delta; anything else fails the fatal
assertions, as does a relocated pointer that leaves the requested span
checked by the code. -/
def RelocateBufferToRequested.do_bit (c : RelocConfig) (st : PtrmapState)
    (offset : Nat) : Except BuildError PtrmapState :=
  let p := c.locOf offset
  if ¬ c.is_in_buffer_space p then
    Except.error (BuildError.assert_failed "pointer must live in buffer space")
  else
    let v := st.mem p
    if v = 0 then
      -- todo -- clear bit, etc
      Except.ok { st with bits := st.bits.set offset false }
    else if c.staticDump then
      if ¬ c.is_in_buffer_space v then
        Except.error (BuildError.assert_failed "old pointer must point inside buffer space")
      else
        let v' := addDelta v c.buffer_to_requested_delta
        if ¬ c.is_in_requested_static_archive v' then
          Except.error (BuildError.assert_failed "new pointer must point inside requested archive")
        else
          Except.ok { mem := fun a => if a = p then v' else st.mem a, bits := st.bits,
                      max_non_null_offset := offset }
    else
      if c.is_in_buffer_space v then
        let v' := addDelta v c.buffer_to_requested_delta
        -- assert is in requested dynamic archive
        Except.ok { mem := fun a => if a = p then v' else st.mem a, bits := st.bits,
                    max_non_null_offset := offset }
      else if ¬ c.is_in_mapped_static_archive v then
        Except.error
          (BuildError.assert_failed "old pointer must point inside buffer space or mapped static archive")
      else
        let v' := addDelta v c.mapped_to_requested_static_archive_delta
        if ¬ c.is_in_requested_static_archive v' then
          Except.error (BuildError.assert_failed "new pointer must point inside requested archive")
        else
          Except.ok { mem := fun a => if a = p then v' else st.mem a, bits := st.bits,
                      max_non_null_offset := offset }

/-- `BitMap::iterate(this)` over the whole ptrmap: visit each index in
ascending order and run `do_bit` on those whose bit is (still) set. -/
def RelocateBufferToRequested.iterate (c : RelocConfig) :
    List Nat → PtrmapState → Except BuildError PtrmapState
  | [], st => Except.ok st
  | off :: rest, st =>
    if st.bits.getD off false then
      match RelocateBufferToRequested.do_bit c st off with
      | Except.error e => Except.error e
      | Except.ok st' => RelocateBufferToRequested.iterate c rest st'
    else
      RelocateBufferToRequested.iterate c rest st

/-- Modelled from the spec: `ArchivePtrMarker::compact(max_non_null_offset)`
(archiveUtils, not under src/) truncates the bitmap's logical length to
`max_non_null_offset + 1`, so trailing zero bits are not persisted. -/
def ArchivePtrMarker.compact (st : PtrmapState) : PtrmapState :=
  { st with bits := st.bits.take (st.max_non_null_offset + 1) }

/-- `RelocateBufferToRequested::doit` (lines 889-892): iterate the whole
pointer bitmap, then compact it to the highest non-null offset seen. -/
def RelocateBufferToRequested.doit (c : RelocConfig) (st : PtrmapState) :
    Except BuildError PtrmapState :=
  match RelocateBufferToRequested.iterate c (List.range st.bits.length) st with
  | Except.error e => Except.error e
  | Except.ok st' => Except.ok (ArchivePtrMarker.compact st')

/-! ## Capacity verification, region allocation, and the placement check -/

/-- The C++ `int` cast applied by `verify_estimate_size` to `size_t` values:
truncation to 32 bits, read back as a signed 32-bit integer. -/
def toInt32 (n : Nat) : Int :=
  let m : Nat := n % 2 ^ 32
  if m < 2 ^ 31 then (m : Int) else (m : Int) - 2 ^ 32

/-- `ArchiveBuilder::verify_estimate_size` (lines 568-579): compare the actual
usage since the last verification (`top - _last_verified_top +
_other_region_used_bytes`) against the a-priori estimate; a negative
difference ("Estimate is too small") is fatal.  On success
`_last_verified_top` advances to `top` and `_other_region_used_bytes` resets
to 0 (the returned pair). -/
def verify_estimate_size (estimate : Nat) (last_verified_top top
    other_region_used_bytes : Nat) : Except BuildError (Nat × Nat) :=
  let used := (top - last_verified_top) + other_region_used_bytes
  let diff : Int := toInt32 estimate - toInt32 used
  if diff < 0 then
    Except.error (BuildError.estimate_too_small "estimate")
  else
    Except.ok (top, 0)

/-- `ArchiveBuilder::report_out_of_space` (lines 1210-1219): print the
out-of-space message and abort via `unrecoverable_writing_error` — the fatal
error value, never a recovery. -/
def report_out_of_space (region_name : String) (needed_bytes : Nat) : BuildError :=
  BuildError.out_of_space region_name needed_bytes

/-- A `DumpRegion`: a bump allocator over a reserved contiguous span. -/
structure DumpRegion where
  region_name : String
  base : Nat
  top : Nat
  reserved_end : Nat
deriving DecidableEq, Repr

/-- Modelled from the spec: `DumpRegion::allocate(n)` (archiveUtils, not under
src/) bump-allocates `n` bytes from the current top, aligned to the platform
word size; it fails fatally through `report_out_of_space` when the reserved
span is exhausted — the allocator has no growth strategy and is never
retried. -/
def DumpRegion.allocate (r : DumpRegion) (num_bytes : Nat) :
    Except BuildError (Nat × DumpRegion) :=
  let p := alignUp r.top wordSize
  let newtop := p + alignUp num_bytes wordSize
  if r.reserved_end < newtop then
    Except.error (report_out_of_space r.region_name num_bytes)
  else
    Except.ok (p, { r with top := newtop })

/-- `2 ^ 64`: pointer arithmetic in `reserve_buffer` wraps at the word width. -/
def addrSpace : Nat := 2 ^ 64

/-- The placement check of `ArchiveBuilder::reserve_buffer` (lines 344-376):
compute the requested bottom of the archive being written (the static base
for a static dump; the aligned top of the prior archive's requested span for
a dynamic dump) and its requested top; fail fatally — instructing the caller
to rerun with a lower base — if the bottom falls below the static base or
the top wraps to at or below it.  On success the computed bottom is returned
unchanged: the builder never picks a different base itself. -/
def reserve_buffer_placement (dumpStatic : Bool)
    (requested_static_archive_bottom : Nat)
    (mapped_static_archive_bottom mapped_static_archive_top : Nat)
    (core_region_alignment : Nat) (buffer_size : Nat) : Except BuildError Nat :=
  let static_archive_size := mapped_static_archive_top - mapped_static_archive_bottom
  let my_archive_requested_bottom :=
    if dumpStatic then
      requested_static_archive_bottom
    else
      alignUp (requested_static_archive_bottom + static_archive_size)
        core_region_alignment % addrSpace
  let my_archive_requested_top := (my_archive_requested_bottom + buffer_size) % addrSpace
  if my_archive_requested_bottom < requested_static_archive_bottom ∨
     my_archive_requested_top ≤ requested_static_archive_bottom then
    Except.error (BuildError.shared_base_too_high my_archive_requested_bottom
      my_archive_requested_top requested_static_archive_bottom)
  else
    Except.ok my_archive_requested_bottom

/-! ## Theorems -/

/-- C2: For every newly discovered reference, the follow mode is decided by
this ordered rule: if the referenced object already lies inside a previously
produced shared archive, the mode is `point_to_it`; else if the exclusion
policy or a kind-specific rule (MethodData/MethodCounters, excluded classes)
marks it unrepresentable, the mode is `set_to_null`; else the mode is
`make_a_copy`, and only `make_a_copy` objects are recursed into. -/
theorem c2_follow_mode_ordered_rule (env : BuildEnv) (ref : Ref) :
    (env.is_in_shared_metaspace ref.obj = true →
      get_follow_mode env ref = FollowMode.point_to_it) ∧
    (env.is_in_shared_metaspace ref.obj = false →
      (ref.msotype = MsoType.MethodDataType ∨ ref.msotype = MsoType.MethodCountersType ∨
        (ref.msotype = MsoType.ClassType ∧ is_excluded env ref.obj = true)) →
      get_follow_mode env ref = FollowMode.set_to_null) ∧
    (env.is_in_shared_metaspace ref.obj = false →
      ref.msotype ≠ MsoType.MethodDataType →
      ref.msotype ≠ MsoType.MethodCountersType →
      (ref.msotype = MsoType.ClassType → is_excluded env ref.obj = false) →
      get_follow_mode env ref = FollowMode.make_a_copy) ∧
    (∀ (st st' : GatherState) (ro : Bool),
      gather_one_source_obj env st ref ro = Except.ok (st', true) →
      get_follow_mode env ref = FollowMode.make_a_copy) := by
  refine ⟨?_, ?_, ?_, ?_⟩
  · intro hs
    simp [get_follow_mode, hs]
  · intro hs hk
    rcases hk with h | h | ⟨hc, he⟩
    · simp [get_follow_mode, hs, h]
    · simp [get_follow_mode, hs, h]
    · simp [get_follow_mode, hs, hc, he]
  · intro hs h1 h2 h3
    have hmd : ¬(ref.msotype = MsoType.MethodDataType ∨
        ref.msotype = MsoType.MethodCountersType) := by
      rintro (h | h)
      · exact h1 h
      · exact h2 h
    have hcl : ¬(ref.msotype = MsoType.ClassType ∧ is_excluded env ref.obj = true) := by
      rintro ⟨hc, he⟩
      rw [h3 hc] at he
      cases he
    simp [get_follow_mode, hs, hmd, hcl]
  · intro st st' ro h
    unfold gather_one_source_obj at h
    split at h
    · simp at h
    · split at h
      · simp at h
      · split at h
        · simp at h
        case _ st₁ heq =>
          by_cases hfm : get_follow_mode env ref = FollowMode.make_a_copy
          · exact hfm
          · exfalso
            rcases htg : tableGet st₁.table ref.obj with _ | e
            · have hsc : (SourceObjInfo.ofRef ref ro (get_follow_mode env ref)).should_copy
                  = false := by
                simp [SourceObjInfo.should_copy, SourceObjInfo.ofRef, hfm]
              simp only [put_if_absent, htg, hsc] at h
              simp at h
            · simp only [put_if_absent, htg] at h
              split at h
              · simp at h
              · simp at h

/-- A concrete environment for witnesses: nothing is shared, excluded, or
regenerated. -/
def envW : BuildEnv :=
  { DynamicDumpSharedSpaces := false
    is_in_shared_metaspace := fun _ => false
    sysdict_excluded := fun _ => false
    klass_of := fun _ => ⟨KlassKind.typeArrayKlass, 0⟩
    has_been_regenerated := fun _ => false }

/-- A concrete reference for witnesses: a 16-byte object at address 5 with no
enclosing object. -/
def refW : Ref :=
  { obj := 5, msotype := MsoType.OtherType, enclosing_obj := 0, field_addr := 0,
    size_words := 2 }

/-- The empty gathering state. -/
def stW : GatherState :=
  { table := [], rw_src_objs := SourceObjList.empty, ro_src_objs := SourceObjList.empty }

/-- The state after gathering `refW` from the empty state. -/
def stW2 : GatherState :=
  { table := [(5, { source_addr := 5, size_in_bytes := 16, msotype := MsoType.OtherType,
                    read_only := false, follow_mode := FollowMode.make_a_copy,
                    buffered_addr := 0, ptrmap_start := 0, ptrmap_end := 2 })]
    rw_src_objs := { objs := [5], total_bytes := 16, marks := [], ptrmap_size := 16 * 1024 }
    ro_src_objs := SourceObjList.empty }

theorem c2_follow_mode_ordered_rule_witness :
    gather_one_source_obj envW stW refW false = Except.ok (stW2, true) ∧
    get_follow_mode envW refW = FollowMode.make_a_copy :=
  have h : gather_one_source_obj envW stW refW false = Except.ok (stW2, true) := by rfl
  ⟨h, (c2_follow_mode_ordered_rule envW refW).2.2.2 stW stW2 false h⟩

/-- C9: Before any copying, `reserve_buffer` verifies the requested placement:
fatal exactly when the computed requested bottom falls below the requested
static base or the requested top wraps to at or below it; for a static dump
that happens precisely when the base-plus-size sum is empty or wraps around
the address space; and on success the computed bottom is returned unchanged —
the builder never picks a new base itself. -/
theorem c9_reserve_buffer_placement_check (dumpStatic : Bool)
    (base mb mt align size mybot mytop : Nat)
    (hbot : mybot = if dumpStatic then base
      else alignUp (base + (mt - mb)) align % addrSpace)
    (htop : mytop = (mybot + size) % addrSpace)
    (hbase : base < addrSpace) (hsize : size < addrSpace) :
    (reserve_buffer_placement dumpStatic base mb mt align size
        = Except.error (BuildError.shared_base_too_high mybot mytop base)
      ↔ (mybot < base ∨ mytop ≤ base)) ∧
    (dumpStatic = true →
      ((mybot < base ∨ mytop ≤ base) ↔ (size = 0 ∨ addrSpace ≤ base + size))) ∧
    ((¬ (mybot < base ∨ mytop ≤ base)) →
      reserve_buffer_placement dumpStatic base mb mt align size = Except.ok mybot) := by
  subst hbot htop
  refine ⟨?_, ?_, ?_⟩
  · by_cases hc :
      ((if dumpStatic then base else alignUp (base + (mt - mb)) align % addrSpace) < base ∨
       ((if dumpStatic then base else alignUp (base + (mt - mb)) align % addrSpace) + size) %
          addrSpace ≤ base)
    · simp only [reserve_buffer_placement]
      rw [if_pos hc]
      exact iff_of_true rfl hc
    · simp only [reserve_buffer_placement]
      rw [if_neg hc]
      exact iff_of_false (by simp) hc
  · intro hd
    have hmb : (if dumpStatic then base else alignUp (base + (mt - mb)) align % addrSpace)
        = base := by rw [hd]; simp
    rw [hmb]
    simp only [addrSpace] at hbase hsize ⊢
    omega
  · intro h
    simp only [reserve_buffer_placement]
    rw [if_neg h]

theorem c9_reserve_buffer_placement_check_witness :
    ((98 : Nat) = if true then 98 else alignUp (98 + (0 - 0)) 8 % addrSpace) ∧
    ((97 : Nat) = (98 + (2 ^ 64 - 1)) % addrSpace) ∧
    (98 : Nat) < addrSpace ∧ (2 ^ 64 - 1 : Nat) < addrSpace ∧
    ((reserve_buffer_placement true 98 0 0 8 (2 ^ 64 - 1)
        = Except.error (BuildError.shared_base_too_high 98 97 98)
      ↔ ((98 : Nat) < 98 ∨ (97 : Nat) ≤ 98)) ∧
    (true = true →
      (((98 : Nat) < 98 ∨ (97 : Nat) ≤ 98) ↔ ((2 ^ 64 - 1 : Nat) = 0 ∨ addrSpace ≤ 98 + (2 ^ 64 - 1)))) ∧
    ((¬ ((98 : Nat) < 98 ∨ (97 : Nat) ≤ 98)) →
      reserve_buffer_placement true 98 0 0 8 (2 ^ 64 - 1) = Except.ok 98)) :=
  ⟨by norm_num [addrSpace], by norm_num [addrSpace], by norm_num [addrSpace],
   by norm_num [addrSpace],
   c9_reserve_buffer_placement_check true 98 0 0 8 (2 ^ 64 - 1) 98 97
     (by norm_num [addrSpace]) (by norm_num [addrSpace])
     (by norm_num [addrSpace]) (by norm_num [addrSpace])⟩

/-- C8 (amended): a region allocation request that exceeds the pre-reserved
span fails fatally through `report_out_of_space` (with the region name and the
needed bytes, never a retry); and the per-phase verification fails fatally
exactly when actual usage exceeds the estimate, provided estimate and usage
fit in a signed 32-bit `int` — the quantities are truncated to `int` before
being compared. -/
theorem c8_capacity_shortfall_is_fatal :
    (∀ (r : DumpRegion) (n : Nat),
      r.reserved_end < alignUp r.top wordSize + alignUp n wordSize →
      r.allocate n = Except.error (report_out_of_space r.region_name n)) ∧
    (∀ estimate last_top top other : Nat,
      estimate < 2 ^ 31 → (top - last_top) + other < 2 ^ 31 →
      (verify_estimate_size estimate last_top top other
          = Except.error (BuildError.estimate_too_small "estimate")
        ↔ estimate < (top - last_top) + other)) := by
  constructor
  · intro r n h
    simp [DumpRegion.allocate, h]
  · intro estimate last_top top other h1 h2
    have e1 : toInt32 estimate = (estimate : Int) := by
      simp only [toInt32]
      rw [Nat.mod_eq_of_lt (show estimate < 2 ^ 32 by omega), if_pos h1]
    have e2 : toInt32 ((top - last_top) + other) = (((top - last_top) + other : Nat) : Int) := by
      simp only [toInt32]
      rw [Nat.mod_eq_of_lt (show (top - last_top) + other < 2 ^ 32 by omega), if_pos h2]
    simp only [verify_estimate_size]
    rw [e1, e2]
    split
    case isTrue h => simp; omega
    case isFalse h => simp; omega

/-- C8 counterexample: with estimate `0` and actual usage `2^32` bytes, both
sides truncate to `int` value `0`, the difference is `0`, and
`verify_estimate_size` succeeds — although usage strictly exceeds the
estimate, no fatal error is raised. -/
theorem c8_capacity_shortfall_counterexample :
    verify_estimate_size 0 0 (2 ^ 32) 0 = Except.ok (2 ^ 32, 0) ∧
    (0 : Nat) < ((2 ^ 32 - 0) + 0 : Nat) := by
  constructor
  · rfl
  · norm_num

/-- A concrete region for the C8 witness: 16 reserved bytes, 24 requested. -/
def rW : DumpRegion := { region_name := "rw", base := 0, top := 0, reserved_end := 16 }

theorem c8_capacity_shortfall_is_fatal_witness :
    (rW.reserved_end < alignUp rW.top wordSize + alignUp 24 wordSize ∧
      rW.allocate 24 = Except.error (report_out_of_space rW.region_name 24)) ∧
    ((10 : Nat) < 2 ^ 31 ∧ ((30 : Nat) - 0) + 0 < 2 ^ 31 ∧
      (verify_estimate_size 10 0 30 0 = Except.error (BuildError.estimate_too_small "estimate")
        ↔ (10 : Nat) < (30 - 0) + 0)) :=
  ⟨⟨by decide, c8_capacity_shortfall_is_fatal.1 rW 24 (by decide)⟩,
   ⟨by norm_num, by norm_num,
    c8_capacity_shortfall_is_fatal.2 10 0 30 0 (by norm_num) (by norm_num)⟩⟩

/-! ### Association-table helper lemmas -/

theorem tableGet_append (t : ObjTable) (a k : Nat) (v : SourceObjInfo) :
    tableGet (t ++ [(k, v)]) a =
      match tableGet t a with
      | some e => some e
      | none => if k = a then some v else none := by
  induction t with
  | nil => simp [tableGet]
  | cons hd tl ih =>
    rcases hd with ⟨k0, v0⟩
    by_cases h : k0 = a
    · simp [tableGet, h]
    · simpa [tableGet, h] using ih

theorem tableGet_tableSet_self (t : ObjTable) (a : Nat) (e : SourceObjInfo)
    (h : tableGet t a = some e) (v : SourceObjInfo) :
    tableGet (tableSet t a v) a = some v := by
  induction t with
  | nil => simp [tableGet] at h
  | cons hd tl ih =>
    rcases hd with ⟨k0, v0⟩
    by_cases hk : k0 = a
    · simp [tableGet, tableSet, hk]
    · simp only [tableGet, tableSet, if_neg hk] at h ⊢
      exact ih h

/-- C10: for an object `orig` recorded as regenerated with replacement
`regen`, the table gains an entry for `orig` aliasing `regen`'s buffered
address, `get_buffered_addr` returns the same buffered address for both, and
the gathering step never gathers or copies a regenerated original (it leaves
the state untouched and does not recurse). -/
theorem c10_record_regenerated_object (env : BuildEnv) (t : ObjTable)
    (orig regen : Nat) (p : SourceObjInfo)
    (hregen : tableGet t regen = some p) (horig : tableGet t orig = none) :
    (record_regenerated_object t orig regen
        = Except.ok (t ++ [(orig, SourceObjInfo.ofRegenerated orig p)])) ∧
    (∀ t', record_regenerated_object t orig regen = Except.ok t' →
      get_buffered_addr t' orig = Except.ok p.buffered_addr ∧
      get_buffered_addr t' regen = Except.ok p.buffered_addr) ∧
    (∀ (st : GatherState) (ref : Ref) (ro : Bool),
      ref.obj = orig → env.has_been_regenerated orig = true →
      gather_one_source_obj env st ref ro = Except.ok (st, false)) := by
  have hrec : record_regenerated_object t orig regen
      = Except.ok (t ++ [(orig, SourceObjInfo.ofRegenerated orig p)]) := by
    unfold record_regenerated_object
    rw [hregen]
    simp [put_if_absent, horig]
  refine ⟨hrec, ?_, ?_⟩
  · intro t' ht'
    rw [hrec] at ht'
    cases ht'
    constructor
    · unfold get_buffered_addr
      rw [tableGet_append, horig]
      simp [SourceObjInfo.ofRegenerated]
    · unfold get_buffered_addr
      rw [tableGet_append, hregen]
  · intro st ref ro hro hreg
    unfold gather_one_source_obj
    by_cases h0 : ref.obj = 0
    · simp [h0]
    · rw [if_neg h0, hro, hreg]
      simp

/-- Concrete table entries for the C10 witness. -/
def pInfoW : SourceObjInfo :=
  { source_addr := 7, size_in_bytes := 16, msotype := MsoType.MethodType,
    read_only := true, follow_mode := FollowMode.make_a_copy, buffered_addr := 42,
    ptrmap_start := 0, ptrmap_end := 2 }

theorem c10_record_regenerated_object_witness :
    tableGet [(7, pInfoW)] 7 = some pInfoW ∧ tableGet [(7, pInfoW)] 3 = none ∧
    record_regenerated_object [(7, pInfoW)] 3 7
      = Except.ok ([(7, pInfoW)] ++ [(3, SourceObjInfo.ofRegenerated 3 pInfoW)]) :=
  ⟨by rfl, by rfl,
   (c10_record_regenerated_object envW [(7, pInfoW)] 3 7 pInfoW (by rfl) (by rfl)).1⟩

/-- Recording an embedded pointer in the enclosing object only marks a bit in
a region's bitmap: the table and every other region field are untouched. -/
theorem remember_embedded_preserves (st st' : GatherState) (ref : Ref)
    (h : remember_embedded_pointer_in_enclosing_obj st ref = Except.ok st') :
    st'.table = st.table ∧
    st'.rw_src_objs.objs = st.rw_src_objs.objs ∧
    st'.rw_src_objs.total_bytes = st.rw_src_objs.total_bytes ∧
    st'.rw_src_objs.ptrmap_size = st.rw_src_objs.ptrmap_size ∧
    st'.ro_src_objs.objs = st.ro_src_objs.objs ∧
    st'.ro_src_objs.total_bytes = st.ro_src_objs.total_bytes ∧
    st'.ro_src_objs.ptrmap_size = st.ro_src_objs.ptrmap_size := by
  unfold remember_embedded_pointer_in_enclosing_obj at h
  split at h
  · cases h; exact ⟨rfl, rfl, rfl, rfl, rfl, rfl, rfl⟩
  · split at h
    · cases h; exact ⟨rfl, rfl, rfl, rfl, rfl, rfl, rfl⟩
    case _ src_info _ =>
      split at h
      · split at h
        · unfold SourceObjList.remember_embedded_pointer at h
          split at h
          · cases h; exact ⟨rfl, rfl, rfl, rfl, rfl, rfl, rfl⟩
          · cases h
        · unfold SourceObjList.remember_embedded_pointer at h
          split at h
          · cases h; exact ⟨rfl, rfl, rfl, rfl, rfl, rfl, rfl⟩
          · cases h
      · cases h; exact ⟨rfl, rfl, rfl, rfl, rfl, rfl, rfl⟩

/-- C3: the object table maps each distinct source address to exactly one
entry.  (A) A subsequent visit of an already-tabled source address creates no
new entry, changes neither the classification nor the region, appends nothing
to any region's object list, and does not recurse — it is embedded-pointer
bookkeeping only.  (B) The first visit creates the entry and fixes its
classification (`follow_mode`) and region (`read_only`). -/
theorem c3_object_table_dedup (env : BuildEnv) (st : GatherState) (ref : Ref) (ro : Bool)
    (hobj : ref.obj ≠ 0) (hreg : env.has_been_regenerated ref.obj = false) :
    (∀ e st' r, tableGet st.table ref.obj = some e → e.read_only = ro →
      gather_one_source_obj env st ref ro = Except.ok (st', r) →
      st'.table = st.table ∧ r = false ∧
      st'.rw_src_objs.objs = st.rw_src_objs.objs ∧
      st'.rw_src_objs.total_bytes = st.rw_src_objs.total_bytes ∧
      st'.ro_src_objs.objs = st.ro_src_objs.objs ∧
      st'.ro_src_objs.total_bytes = st.ro_src_objs.total_bytes) ∧
    (∀ st' r, tableGet st.table ref.obj = none →
      gather_one_source_obj env st ref ro = Except.ok (st', r) →
      ∃ en, tableGet st'.table ref.obj = some en ∧
        en.follow_mode = get_follow_mode env ref ∧ en.read_only = ro ∧
        en.source_addr = ref.obj) := by
  constructor
  · intro e st' r he hro h
    unfold gather_one_source_obj at h
    rw [if_neg hobj, hreg] at h
    simp only [Bool.false_eq_true, if_false] at h
    split at h
    · simp at h
    case _ st₁ hrem =>
      obtain ⟨ht, hrw1, hrw2, _, hro1, hro2, _⟩ := remember_embedded_preserves st st₁ ref hrem
      rw [ht] at h
      simp only [put_if_absent, he, SourceObjInfo.ofRef] at h
      rw [if_neg (by simp [hro])] at h
      simp only [Bool.false_eq_true, false_and, if_false] at h
      cases h
      exact ⟨rfl, rfl, hrw1, hrw2, hro1, hro2⟩
  · intro st' r hnone h
    unfold gather_one_source_obj at h
    rw [if_neg hobj, hreg] at h
    simp only [Bool.false_eq_true, if_false] at h
    split at h
    · simp at h
    case _ st₁ hrem =>
      obtain ⟨ht, _, _, _, _, _, _⟩ := remember_embedded_preserves st st₁ ref hrem
      rw [ht] at h
      simp only [put_if_absent, hnone] at h
      rw [if_neg (by simp)] at h
      have hget : tableGet (st.table ++ [(ref.obj, SourceObjInfo.ofRef ref ro
          (get_follow_mode env ref))]) ref.obj
          = some (SourceObjInfo.ofRef ref ro (get_follow_mode env ref)) := by
        rw [tableGet_append, hnone]
        simp
      split at h
      · split at h <;>
        · cases h
          exact ⟨_, tableGet_tableSet_self _ _ _ hget _,
            by simp [SourceObjInfo.ofRef], by simp [SourceObjInfo.ofRef],
            by simp [SourceObjInfo.ofRef]⟩
      · cases h
        exact ⟨_, hget, by simp [SourceObjInfo.ofRef], by simp [SourceObjInfo.ofRef],
          by simp [SourceObjInfo.ofRef]⟩

/-- The table entry of `refW` inside `stW2`, for the C3 witness. -/
def infoW : SourceObjInfo :=
  { source_addr := 5, size_in_bytes := 16, msotype := MsoType.OtherType,
    read_only := false, follow_mode := FollowMode.make_a_copy,
    buffered_addr := 0, ptrmap_start := 0, ptrmap_end := 2 }

theorem c3_object_table_dedup_witness :
    refW.obj ≠ 0 ∧ envW.has_been_regenerated refW.obj = false ∧
    tableGet stW2.table refW.obj = some infoW ∧ infoW.read_only = false ∧
    gather_one_source_obj envW stW2 refW false = Except.ok (stW2, false) ∧
    (stW2.table = stW2.table ∧ false = false ∧
      stW2.rw_src_objs.objs = stW2.rw_src_objs.objs ∧
      stW2.rw_src_objs.total_bytes = stW2.rw_src_objs.total_bytes ∧
      stW2.ro_src_objs.objs = stW2.ro_src_objs.objs ∧
      stW2.ro_src_objs.total_bytes = stW2.ro_src_objs.total_bytes) :=
  have hrun : gather_one_source_obj envW stW2 refW false = Except.ok (stW2, false) := by rfl
  ⟨by decide, by rfl, by rfl, by rfl, hrun,
   (c3_object_table_dedup envW stW2 refW false (by decide) (by rfl)).1 infoW stW2 false
     (by rfl) (by rfl) hrun⟩

instance : IsTotal KlassRec (fun a b => a.name ≤ b.name) :=
  ⟨fun a b => Nat.le_total a.name b.name⟩

instance : IsTrans KlassRec (fun a b => a.name ≤ b.name) :=
  ⟨fun _ _ _ hab hbc => Nat.le_trans hab hbc⟩

/-- Two sorted lists that are permutations of each other and have pairwise
distinct sort keys are equal (the comparison-sorted order is unique when the
comparator never ties). -/
theorem sorted_key_nodup_unique {α : Type} (key : α → Nat) :
    ∀ (l₁ l₂ : List α), l₁.Perm l₂ →
      l₁.Sorted (fun a b => key a ≤ key b) → l₂.Sorted (fun a b => key a ≤ key b) →
      (l₁.map key).Nodup → l₁ = l₂ := by
  intro l₁
  induction l₁ with
  | nil =>
    intro l₂ hp _ _ _
    exact (List.Perm.eq_nil hp.symm).symm
  | cons a t ih =>
    intro l₂ hp hs₁ hs₂ hnd
    cases l₂ with
    | nil => exact absurd (List.Perm.eq_nil hp) (by simp)
    | cons b u =>
      by_cases hab : a = b
      · subst hab
        have hp' := hp.cons_inv
        simp only [List.map_cons, List.nodup_cons] at hnd
        rw [ih u hp' hs₁.of_cons hs₂.of_cons hnd.2]
      · exfalso
        have hbmem : b ∈ a :: t := hp.symm.subset (List.mem_cons_self b u)
        have hbt : b ∈ t := by
          rcases List.mem_cons.mp hbmem with h | h
          · exact absurd h.symm hab
          · exact h
        have hamem : a ∈ b :: u := hp.subset (List.mem_cons_self a t)
        have hau : a ∈ u := by
          rcases List.mem_cons.mp hamem with h | h
          · exact absurd h hab
          · exact h
        have h1 : key a ≤ key b := List.rel_of_sorted_cons hs₁ b hbt
        have h2 : key b ≤ key a := List.rel_of_sorted_cons hs₂ a hau
        have hk : key a = key b := Nat.le_antisymm h1 h2
        simp only [List.map_cons, List.nodup_cons] at hnd
        refine hnd.1 ?_
        rw [hk]
        exact List.mem_map_of_mem key hbt

/-- `ArchiveBuilder::iterate_sorted_roots` (lines 387-399): the root iteration
order handed to the gatherer — and through it to the shallow-copy engine,
which materializes region contents and bitmap in exactly this discovery
order — is the sorted symbols first, then the sorted klasses, then the
external roots. -/
def iterate_sorted_roots_order (symbols : List Nat) (klasses : List KlassRec)
    (external_roots : List Nat) : List Nat :=
  symbols ++ (klasses.map KlassRec.addr ++ external_roots)

/-- C6 counterexample: two gathers of the same root set (permutations of each
other) containing two distinct classes that share a name symbol: sorting by
name leaves their relative order as it was in the input, so the two builds
hand different copy orders to the copy phase — the sorting mechanism alone
does not make the archive contents identical when the class-name comparator
ties. -/
theorem c6_deterministic_sort_order_counterexample :
    ([⟨1, 5⟩, ⟨2, 5⟩] : List KlassRec).Perm [⟨2, 5⟩, ⟨1, 5⟩] ∧
    sort_klasses [⟨1, 5⟩, ⟨2, 5⟩] ≠ sort_klasses [⟨2, 5⟩, ⟨1, 5⟩] ∧
    iterate_sorted_roots_order [] (sort_klasses [⟨1, 5⟩, ⟨2, 5⟩]) []
      ≠ iterate_sorted_roots_order [] (sort_klasses [⟨2, 5⟩, ⟨1, 5⟩]) [] := by
  refine ⟨by decide, by decide, by decide⟩

/-- C6 (amended): the determinism mechanism of a static dump —
`sort_symbols_and_fix_hash` sorts the gathered symbols by ascending source
address and `sort_klasses` sorts the gathered classes by name; given the same
root set (the gathered lists of two builds are permutations of each other)
and tie-free sort keys (distinct class names; duplicate symbols are already a
fatal assert of `compare_symbols_by_address`), the sorted lists, the root
iteration order built from them, and therefore everything the deterministic
copy phase derives from that order — the region contents and the bitmap —
are identical across the two builds. -/
theorem c6_deterministic_sort_order (s₁ s₂ : List Nat) (k₁ k₂ : List KlassRec)
    (external_roots : List Nat)
    (hs : s₁.Perm s₂) (hk : k₁.Perm k₂) (hnames : (k₁.map KlassRec.name).Nodup) :
    sort_symbols s₁ = sort_symbols s₂ ∧ sort_klasses k₁ = sort_klasses k₂ ∧
    iterate_sorted_roots_order (sort_symbols s₁) (sort_klasses k₁) external_roots
      = iterate_sorted_roots_order (sort_symbols s₂) (sort_klasses k₂) external_roots ∧
    (∀ {β : Type} (build : List Nat → β),
      build (iterate_sorted_roots_order (sort_symbols s₁) (sort_klasses k₁) external_roots)
        = build (iterate_sorted_roots_order (sort_symbols s₂) (sort_klasses k₂)
            external_roots)) := by
  have h1 : sort_symbols s₁ = sort_symbols s₂ := by
    unfold sort_symbols
    exact List.eq_of_perm_of_sorted
      ((List.perm_insertionSort _ s₁).trans (hs.trans (List.perm_insertionSort _ s₂).symm))
      (List.sorted_insertionSort _ s₁) (List.sorted_insertionSort _ s₂)
  have h2 : sort_klasses k₁ = sort_klasses k₂ := by
    unfold sort_klasses
    refine sorted_key_nodup_unique KlassRec.name _ _
      ((List.perm_insertionSort _ k₁).trans (hk.trans (List.perm_insertionSort _ k₂).symm))
      (List.sorted_insertionSort _ k₁) (List.sorted_insertionSort _ k₂) ?_
    exact (((List.perm_insertionSort _ k₁).map KlassRec.name).nodup_iff).mpr hnames
  have h3 : iterate_sorted_roots_order (sort_symbols s₁) (sort_klasses k₁) external_roots
      = iterate_sorted_roots_order (sort_symbols s₂) (sort_klasses k₂) external_roots := by
    rw [h1, h2]
  exact ⟨h1, h2, h3, fun build => by rw [h3]⟩

theorem c6_deterministic_sort_order_witness :
    ([3, 1, 2] : List Nat).Perm [2, 3, 1] ∧
    ([⟨10, 4⟩, ⟨11, 6⟩, ⟨12, 5⟩] : List KlassRec).Perm [⟨12, 5⟩, ⟨10, 4⟩, ⟨11, 6⟩] ∧
    (([⟨10, 4⟩, ⟨11, 6⟩, ⟨12, 5⟩] : List KlassRec).map KlassRec.name).Nodup ∧
    (sort_symbols [3, 1, 2] = sort_symbols [2, 3, 1] ∧
      sort_klasses [⟨10, 4⟩, ⟨11, 6⟩, ⟨12, 5⟩] = sort_klasses [⟨12, 5⟩, ⟨10, 4⟩, ⟨11, 6⟩] ∧
      iterate_sorted_roots_order (sort_symbols [3, 1, 2])
          (sort_klasses [⟨10, 4⟩, ⟨11, 6⟩, ⟨12, 5⟩]) [99]
        = iterate_sorted_roots_order (sort_symbols [2, 3, 1])
            (sort_klasses [⟨12, 5⟩, ⟨10, 4⟩, ⟨11, 6⟩]) [99] ∧
      (∀ {β : Type} (build : List Nat → β),
        build (iterate_sorted_roots_order (sort_symbols [3, 1, 2])
            (sort_klasses [⟨10, 4⟩, ⟨11, 6⟩, ⟨12, 5⟩]) [99])
          = build (iterate_sorted_roots_order (sort_symbols [2, 3, 1])
              (sort_klasses [⟨12, 5⟩, ⟨10, 4⟩, ⟨11, 6⟩]) [99]))) :=
  ⟨by decide, by decide, by decide,
   c6_deterministic_sort_order [3, 1, 2] [2, 3, 1]
     [⟨10, 4⟩, ⟨11, 6⟩, ⟨12, 5⟩] [⟨12, 5⟩, ⟨10, 4⟩, ⟨11, 6⟩] [99]
     (by decide) (by decide) (by decide)⟩

/-- C7: during per-object embedded-pointer relocation, each marked pointer
field is resolved through the object table from its source address to the
corresponding buffered address and overwritten in place, the memory elsewhere
is untouched, and the pointer-bitmap bit of the buffered location is kept
set; if the pointed-to source address was never captured, the build fails
fatally reporting exactly that unresolved address. -/
theorem c7_relocate_embedded_pointers_do_bit (table : ObjTable)
    (buffer_bottom buffered_obj start_idx bit_offset : Nat) (st : BufferState) :
    (tableGet table (st.mem (buffered_obj + (bit_offset - start_idx) * wordSize)) = none →
      RelocateEmbeddedPointers.do_bit table buffer_bottom buffered_obj start_idx st bit_offset
        = Except.error (BuildError.unresolved_source
            (st.mem (buffered_obj + (bit_offset - start_idx) * wordSize)))) ∧
    (∀ q, tableGet table (st.mem (buffered_obj + (bit_offset - start_idx) * wordSize))
        = some q →
      ∃ st', RelocateEmbeddedPointers.do_bit table buffer_bottom buffered_obj start_idx st
            bit_offset = Except.ok st' ∧
        st'.mem (buffered_obj + (bit_offset - start_idx) * wordSize) = q.buffered_addr ∧
        (∀ a, a ≠ buffered_obj + (bit_offset - start_idx) * wordSize →
          st'.mem a = st.mem a) ∧
        ((buffered_obj + (bit_offset - start_idx) * wordSize - buffer_bottom) / wordSize)
          ∈ st'.global_marks) := by
  constructor
  · intro hn
    simp only [RelocateEmbeddedPointers.do_bit, get_buffered_addr, hn]
  · intro q hq
    simp only [RelocateEmbeddedPointers.do_bit, get_buffered_addr, hq]
    refine ⟨_, rfl, ?_, ?_, ?_⟩
    · simp [set_and_mark_pointer]
    · intro a ha
      simp [set_and_mark_pointer, ha]
    · simp [set_and_mark_pointer]

/-- A concrete buffer for the C7 witness: the copied object at buffered
address 100 holds the source pointer 9 in its first field. -/
def bufW : BufferState :=
  { mem := fun a => if a = 100 then 9 else 0, global_marks := [] }

theorem c7_relocate_embedded_pointers_do_bit_witness :
    tableGet [(9, pInfoW)] (bufW.mem (100 + (0 - 0) * wordSize)) = some pInfoW ∧
    (∃ st', RelocateEmbeddedPointers.do_bit [(9, pInfoW)] 64 100 0 bufW 0
        = Except.ok st' ∧
      st'.mem (100 + (0 - 0) * wordSize) = pInfoW.buffered_addr ∧
      (∀ a, a ≠ 100 + (0 - 0) * wordSize → st'.mem a = bufW.mem a) ∧
      ((100 + (0 - 0) * wordSize - 64) / wordSize) ∈ st'.global_marks) :=
  ⟨by rfl,
   (c7_relocate_embedded_pointers_do_bit [(9, pInfoW)] 64 100 0 0 bufW).2 pInfoW (by rfl)⟩

/-! ### C4: interval bookkeeping of `SourceObjList::append` -/

/-- Append a whole discovery-ordered list of `(source_addr, byte_size)` pairs
to a region's `SourceObjList`, collecting the `[ptrmap_start, ptrmap_end)`
interval reserved for each (the loop around `SourceObjList::append` performed
by the gathering phase). -/
def SourceObjList.appendAllWithIntervals : SourceObjList → List (Nat × Nat) →
    SourceObjList × List (Nat × Nat)
  | l, [] => (l, [])
  | l, it :: rest =>
    let ase := l.append it.1 it.2
    let r := SourceObjList.appendAllWithIntervals ase.1 rest
    (r.1, (ase.2.1, ase.2.2) :: r.2)

/-- `tilesFrom s ivs e`: the intervals `ivs` tile `[s, e)` exactly — each
starts where the previous one ended, with no gaps and no overlaps. -/
def tilesFrom : Nat → List (Nat × Nat) → Nat → Prop
  | s, [], e => s = e
  | s, (a, b) :: rest, e => a = s ∧ s ≤ b ∧ tilesFrom b rest e

/-- Aligning an already word-aligned size is the identity. -/
theorem alignUp_of_dvd {n : Nat} (h : wordSize ∣ n) : alignUp n wordSize = n := by
  unfold alignUp wordSize at *
  omega

theorem tilesFrom_le_heads : ∀ (s : Nat) (ivs : List (Nat × Nat)) (e : Nat),
    tilesFrom s ivs e → ∀ q ∈ ivs, s ≤ q.1 := by
  intro s ivs
  induction ivs generalizing s with
  | nil => intro e _ q hq; cases hq
  | cons hd tl ih =>
    rcases hd with ⟨a, b⟩
    intro e ht q hq
    obtain ⟨ha, hsb, htl⟩ := ht
    rcases List.mem_cons.mp hq with h | h
    · rw [h, ha]
    · exact Nat.le_trans hsb (ih b e htl q h)

theorem tilesFrom_pairwise : ∀ (s : Nat) (ivs : List (Nat × Nat)) (e : Nat),
    tilesFrom s ivs e → ivs.Pairwise (fun p q => p.2 ≤ q.1) := by
  intro s ivs
  induction ivs generalizing s with
  | nil => intro e _; exact List.Pairwise.nil
  | cons hd tl ih =>
    rcases hd with ⟨a, b⟩
    intro e ht
    obtain ⟨ha, hsb, htl⟩ := ht
    exact List.Pairwise.cons (fun q hq => tilesFrom_le_heads b tl e htl q hq) (ih b e htl)

theorem appendAllWithIntervals_spec (items : List (Nat × Nat)) :
    ∀ (l₀ : SourceObjList), wordSize ∣ l₀.total_bytes →
      (∀ it ∈ items, wordSize ∣ it.2) →
      wordSize ∣ (l₀.appendAllWithIntervals items).1.total_bytes ∧
      tilesFrom (l₀.total_bytes / wordSize) (l₀.appendAllWithIntervals items).2
        ((l₀.appendAllWithIntervals items).1.total_bytes / wordSize) ∧
      List.Forall₂ (fun (iv it : Nat × Nat) => iv.2 - iv.1 = it.2 / wordSize)
        (l₀.appendAllWithIntervals items).2 items := by
  induction items with
  | nil =>
    intro l₀ hdvd _
    exact ⟨hdvd, rfl, List.Forall₂.nil⟩
  | cons it rest ih =>
    intro l₀ hdvd hsz
    have hit : wordSize ∣ it.2 := hsz it (List.mem_cons_self it rest)
    have htot : (l₀.append it.1 it.2).1.total_bytes = l₀.total_bytes + it.2 := by
      simp only [SourceObjList.append]
      exact alignUp_of_dvd (Nat.dvd_add hdvd hit)
    have hdvd' : wordSize ∣ (l₀.append it.1 it.2).1.total_bytes := by
      rw [htot]; exact Nat.dvd_add hdvd hit
    obtain ⟨hd1, hd2, hd3⟩ := ih (l₀.append it.1 it.2).1 hdvd'
      (fun x hx => hsz x (List.mem_cons_of_mem it hx))
    refine ⟨hd1, ?_, ?_⟩
    · simp only [SourceObjList.appendAllWithIntervals, SourceObjList.append, tilesFrom]
      refine ⟨trivial, ?_, ?_⟩
      · have hle : l₀.total_bytes ≤ alignUp (l₀.total_bytes + it.2) wordSize := by
          unfold alignUp wordSize
          omega
        exact Nat.div_le_div_right hle
      · have heq : alignUp (l₀.total_bytes + it.2) wordSize / wordSize
            = (l₀.append it.1 it.2).1.total_bytes / wordSize := by
          simp only [SourceObjList.append]
        rw [heq]
        exact hd2
    · simp only [SourceObjList.appendAllWithIntervals, SourceObjList.append]
      refine List.Forall₂.cons ?_ hd3
      have ha : alignUp (l₀.total_bytes + it.2) wordSize = l₀.total_bytes + it.2 :=
        alignUp_of_dvd (Nat.dvd_add hdvd hit)
      simp only [ha]
      unfold wordSize at hdvd hit ⊢
      omega

/-- C4: for every object appended to a region's source-object list, the
reserved bitmap interval `[ptrmap_start, ptrmap_end)` has length in bits
equal to `byte_size / word_size` (object sizes are whole words); the
intervals of successive objects are pairwise disjoint, assigned in append
order, and their union tiles the region's logical pointer space
`[0, total_bytes / word_size)` with no gaps. -/
theorem c4_bitmap_interval_tiling (items : List (Nat × Nat))
    (hsz : ∀ it ∈ items, wordSize ∣ it.2) :
    tilesFrom 0 (SourceObjList.appendAllWithIntervals SourceObjList.empty items).2
      ((SourceObjList.appendAllWithIntervals SourceObjList.empty items).1.total_bytes
        / wordSize) ∧
    List.Forall₂ (fun (iv it : Nat × Nat) => iv.2 - iv.1 = it.2 / wordSize)
      (SourceObjList.appendAllWithIntervals SourceObjList.empty items).2 items ∧
    (SourceObjList.appendAllWithIntervals SourceObjList.empty items).2.Pairwise
      (fun p q => p.2 ≤ q.1) := by
  obtain ⟨_, h2, h3⟩ := appendAllWithIntervals_spec items SourceObjList.empty
    (Dvd.intro 0 rfl) hsz
  exact ⟨h2, h3, tilesFrom_pairwise _ _ _ h2⟩

theorem c4_bitmap_interval_tiling_witness :
    (∀ it ∈ ([(5, 16), (6, 8), (7, 24)] : List (Nat × Nat)), wordSize ∣ it.2) ∧
    (tilesFrom 0
        (SourceObjList.appendAllWithIntervals SourceObjList.empty [(5, 16), (6, 8), (7, 24)]).2
        ((SourceObjList.appendAllWithIntervals SourceObjList.empty
            [(5, 16), (6, 8), (7, 24)]).1.total_bytes / wordSize) ∧
      List.Forall₂ (fun (iv it : Nat × Nat) => iv.2 - iv.1 = it.2 / wordSize)
        (SourceObjList.appendAllWithIntervals SourceObjList.empty
          [(5, 16), (6, 8), (7, 24)]).2 [(5, 16), (6, 8), (7, 24)] ∧
      (SourceObjList.appendAllWithIntervals SourceObjList.empty
        [(5, 16), (6, 8), (7, 24)]).2.Pairwise (fun p q => p.2 ≤ q.1)) :=
  ⟨by decide, c4_bitmap_interval_tiling [(5, 16), (6, 8), (7, 24)] (by decide)⟩

/-- C1: during whole-buffer relocation, for every set bit whose stored pointer
is non-null: a pointer inside the buffer span is incremented by the
buffer-to-requested delta; otherwise — if and only if a prior static archive
is being extended (a dynamic dump) and the pointer lies inside that mapped
prior archive — it is incremented by the mapped-to-requested delta; any other
non-null value fails a fatal assertion; and every relocated pointer lands
inside the corresponding requested span (the new archive's for buffer
pointers, the prior archive's requested span for mapped-prior pointers). -/
theorem c1_whole_buffer_relocation_do_bit (c : RelocConfig) (st : PtrmapState) (offset : Nat)
    (hp : c.is_in_buffer_space (c.locOf offset) = true)
    (hv : st.mem (c.locOf offset) ≠ 0)
    (hst : c.staticDump = true →
      c.requested_static_archive_top
        = c.requested_static_archive_bottom + (c.buffer_top - c.buffer_bottom))
    (hdt : c.staticDump = false →
      c.requested_dynamic_archive_top
        = c.requested_dynamic_archive_bottom + (c.buffer_top - c.buffer_bottom))
    (hmt : c.staticDump = false →
      c.requested_static_archive_top
        = c.requested_static_archive_bottom
          + (c.mapped_static_archive_top - c.mapped_static_archive_bottom)) :
    (c.is_in_buffer_space (st.mem (c.locOf offset)) = true →
      ∃ st', RelocateBufferToRequested.do_bit c st offset = Except.ok st' ∧
        st'.mem (c.locOf offset)
          = addDelta (st.mem (c.locOf offset)) c.buffer_to_requested_delta ∧
        st'.bits = st.bits ∧ st'.max_non_null_offset = offset ∧
        (c.staticDump = true →
          c.requested_static_archive_bottom ≤ st'.mem (c.locOf offset) ∧
          st'.mem (c.locOf offset) < c.requested_static_archive_top) ∧
        (c.staticDump = false →
          c.requested_dynamic_archive_bottom ≤ st'.mem (c.locOf offset) ∧
          st'.mem (c.locOf offset) < c.requested_dynamic_archive_top)) ∧
    (c.is_in_buffer_space (st.mem (c.locOf offset)) = false → c.staticDump = true →
      RelocateBufferToRequested.do_bit c st offset
        = Except.error (BuildError.assert_failed
            "old pointer must point inside buffer space")) ∧
    (c.is_in_buffer_space (st.mem (c.locOf offset)) = false → c.staticDump = false →
      c.is_in_mapped_static_archive (st.mem (c.locOf offset)) = true →
      ∃ st', RelocateBufferToRequested.do_bit c st offset = Except.ok st' ∧
        st'.mem (c.locOf offset)
          = addDelta (st.mem (c.locOf offset)) c.mapped_to_requested_static_archive_delta ∧
        st'.bits = st.bits ∧ st'.max_non_null_offset = offset ∧
        c.requested_static_archive_bottom ≤ st'.mem (c.locOf offset) ∧
        st'.mem (c.locOf offset) < c.requested_static_archive_top) ∧
    (c.is_in_buffer_space (st.mem (c.locOf offset)) = false → c.staticDump = false →
      c.is_in_mapped_static_archive (st.mem (c.locOf offset)) = false →
      RelocateBufferToRequested.do_bit c st offset
        = Except.error (BuildError.assert_failed
            "old pointer must point inside buffer space or mapped static archive")) := by
  refine ⟨?_, ?_, ?_, ?_⟩
  · intro hbuf
    have hvb : c.buffer_bottom ≤ st.mem (c.locOf offset) ∧
        st.mem (c.locOf offset) < c.buffer_top := by
      simpa [RelocConfig.is_in_buffer_space] using hbuf
    rcases hsd : c.staticDump with _ | _
    · -- dynamic dump, pointer inside buffer
      have hΔ : c.buffer_to_requested_delta
          = (c.requested_dynamic_archive_bottom : Int) - (c.buffer_bottom : Int) := by
        simp [RelocConfig.buffer_to_requested_delta, hsd]
      have htop := hdt hsd
      have hbnd : c.requested_dynamic_archive_bottom
            ≤ addDelta (st.mem (c.locOf offset)) c.buffer_to_requested_delta ∧
          addDelta (st.mem (c.locOf offset)) c.buffer_to_requested_delta
            < c.requested_dynamic_archive_top := by
        unfold addDelta
        rw [hΔ]
        omega
      refine ⟨{ mem := fun a => if a = c.locOf offset
                  then addDelta (st.mem (c.locOf offset)) c.buffer_to_requested_delta
                  else st.mem a,
                bits := st.bits, max_non_null_offset := offset }, ?_, by simp, rfl, rfl,
              ?_, ?_⟩
      · simp only [RelocateBufferToRequested.do_bit]
        rw [if_neg (by simp [hp]), if_neg hv, if_neg (by simp [hsd]), if_pos hbuf]
      · intro h; simp at h
      · intro _
        simpa using hbnd
    · -- static dump, pointer inside buffer
      have hΔ : c.buffer_to_requested_delta
          = (c.requested_static_archive_bottom : Int) - (c.buffer_bottom : Int) := by
        simp [RelocConfig.buffer_to_requested_delta, hsd]
      have htop := hst hsd
      have hbnd : c.requested_static_archive_bottom
            ≤ addDelta (st.mem (c.locOf offset)) c.buffer_to_requested_delta ∧
          addDelta (st.mem (c.locOf offset)) c.buffer_to_requested_delta
            < c.requested_static_archive_top := by
        unfold addDelta
        rw [hΔ]
        omega
      have hreqb : c.is_in_requested_static_archive
          (addDelta (st.mem (c.locOf offset)) c.buffer_to_requested_delta) = true := by
        simpa [RelocConfig.is_in_requested_static_archive] using hbnd
      refine ⟨{ mem := fun a => if a = c.locOf offset
                  then addDelta (st.mem (c.locOf offset)) c.buffer_to_requested_delta
                  else st.mem a,
                bits := st.bits, max_non_null_offset := offset }, ?_, by simp, rfl, rfl,
              ?_, ?_⟩
      · simp only [RelocateBufferToRequested.do_bit]
        rw [if_neg (by simp [hp]), if_neg hv, if_pos hsd, if_neg (by simp [hbuf]),
          if_neg (by simp [hreqb])]
      · intro _
        simpa using hbnd
      · intro h; simp at h
  · intro hbuf hsd
    simp only [RelocateBufferToRequested.do_bit]
    rw [if_neg (by simp [hp]), if_neg hv, if_pos hsd, if_pos (by simp [hbuf])]
  · intro hbuf hsd hmap
    have hvm : c.mapped_static_archive_bottom ≤ st.mem (c.locOf offset) ∧
        st.mem (c.locOf offset) < c.mapped_static_archive_top := by
      simpa [RelocConfig.is_in_mapped_static_archive] using hmap
    have htop := hmt hsd
    have hbnd : c.requested_static_archive_bottom
          ≤ addDelta (st.mem (c.locOf offset)) c.mapped_to_requested_static_archive_delta ∧
        addDelta (st.mem (c.locOf offset)) c.mapped_to_requested_static_archive_delta
          < c.requested_static_archive_top := by
      unfold addDelta RelocConfig.mapped_to_requested_static_archive_delta
      omega
    have hreqb : c.is_in_requested_static_archive
        (addDelta (st.mem (c.locOf offset))
          c.mapped_to_requested_static_archive_delta) = true := by
      simpa [RelocConfig.is_in_requested_static_archive] using hbnd
    refine ⟨{ mem := fun a => if a = c.locOf offset
                then addDelta (st.mem (c.locOf offset))
                  c.mapped_to_requested_static_archive_delta
                else st.mem a,
              bits := st.bits, max_non_null_offset := offset }, ?_, by simp, rfl, rfl, ?_⟩
    · simp only [RelocateBufferToRequested.do_bit]
      rw [if_neg (by simp [hp]), if_neg hv, if_neg (by simp [hsd]),
        if_neg (by simp [hbuf]), if_neg (by simp [hmap]), if_neg (by simp [hreqb])]
    · simpa using hbnd
  · intro hbuf hsd hmap
    simp only [RelocateBufferToRequested.do_bit]
    rw [if_neg (by simp [hp]), if_neg hv, if_neg (by simp [hsd]),
      if_neg (by simp [hbuf]), if_pos (by simp [hmap])]

/-- A concrete static-dump relocation configuration for witnesses: buffer
`[100, 200)`, requested static span `[1000, 1100)`. -/
def cW : RelocConfig :=
  { staticDump := true, buffer_bottom := 100, buffer_top := 200,
    requested_static_archive_bottom := 1000, requested_static_archive_top := 1100,
    mapped_static_archive_bottom := 0, mapped_static_archive_top := 0,
    requested_dynamic_archive_bottom := 0, requested_dynamic_archive_top := 0 }

/-- A concrete relocation state: one marked word at buffer offset 0 holding
the buffer pointer 150. -/
def stPW : PtrmapState :=
  { mem := fun a => if a = 100 then 150 else 0, bits := [true],
    max_non_null_offset := 0 }

theorem c1_whole_buffer_relocation_do_bit_witness :
    cW.is_in_buffer_space (cW.locOf 0) = true ∧
    stPW.mem (cW.locOf 0) ≠ 0 ∧
    cW.is_in_buffer_space (stPW.mem (cW.locOf 0)) = true ∧
    (∃ st', RelocateBufferToRequested.do_bit cW stPW 0 = Except.ok st' ∧
      st'.mem (cW.locOf 0)
        = addDelta (stPW.mem (cW.locOf 0)) cW.buffer_to_requested_delta ∧
      st'.bits = stPW.bits ∧ st'.max_non_null_offset = 0 ∧
      (cW.staticDump = true →
        cW.requested_static_archive_bottom ≤ st'.mem (cW.locOf 0) ∧
        st'.mem (cW.locOf 0) < cW.requested_static_archive_top) ∧
      (cW.staticDump = false →
        cW.requested_dynamic_archive_bottom ≤ st'.mem (cW.locOf 0) ∧
        st'.mem (cW.locOf 0) < cW.requested_dynamic_archive_top)) :=
  ⟨by decide, by decide, by decide,
   (c1_whole_buffer_relocation_do_bit cW stPW 0 (by decide) (by decide)
      (by decide) (by decide) (by decide)).1 (by decide)⟩

/-! ### C5: null-bit clearing and bitmap compaction -/

theorem getD_set_self (l : List Bool) (i : Nat) (b d : Bool) :
    (l.set i b).getD i d = if i < l.length then b else d := by
  induction l generalizing i with
  | nil => simp
  | cons hd tl ihl =>
    cases i with
    | zero => simp
    | succ n =>
      simp only [List.set, List.getD_cons_succ, List.length_cons, ihl]
      have : n + 1 < tl.length + 1 ↔ n < tl.length := by omega
      rw [if_congr this rfl rfl]

theorem getD_set_ne (l : List Bool) (i j : Nat) (b d : Bool) (h : j ≠ i) :
    (l.set i b).getD j d = l.getD j d := by
  induction l generalizing i j with
  | nil => simp
  | cons hd tl ihl =>
    cases i with
    | zero =>
      cases j with
      | zero => exact absurd rfl h
      | succ m => simp
    | succ n =>
      cases j with
      | zero => simp
      | succ m =>
        simp only [List.set, List.getD_cons_succ]
        exact ihl n m (fun he => h (by rw [he]))

theorem getD_take (l : List Bool) (n i : Nat) (d : Bool) :
    (l.take n).getD i d = if i < n then l.getD i d else d := by
  induction l generalizing n i with
  | nil => simp
  | cons hd tl ihl =>
    cases n with
    | zero => simp
    | succ m =>
      cases i with
      | zero => simp
      | succ k =>
        simp only [List.take, List.getD_cons_succ, ihl]
        have : k + 1 < m + 1 ↔ k < m := by omega
        rw [if_congr this rfl rfl]

theorem getD_true_lt_length (l : List Bool) (i : Nat) (h : l.getD i false = true) :
    i < l.length := by
  by_contra hc
  rw [List.getD_eq_default _ _ (by omega)] at h
  cases h

/-- Inversion for pass-2 `do_bit`: on success, either the stored pointer was
null (the bit at `offset` is cleared, nothing else changes), or it was
non-null (the word at `locOf offset` is rewritten, the bitmap is unchanged,
and `_max_non_null_offset` becomes `offset`). -/
theorem do_bit_ok_inv (c : RelocConfig) (st st₁ : PtrmapState) (off : Nat)
    (h : RelocateBufferToRequested.do_bit c st off = Except.ok st₁) :
    (st.mem (c.locOf off) = 0 ∧ st₁.mem = st.mem ∧ st₁.bits = st.bits.set off false ∧
      st₁.max_non_null_offset = st.max_non_null_offset) ∨
    (st.mem (c.locOf off) ≠ 0 ∧ (∀ q, q ≠ c.locOf off → st₁.mem q = st.mem q) ∧
      st₁.bits = st.bits ∧ st₁.max_non_null_offset = off) := by
  simp only [RelocateBufferToRequested.do_bit] at h
  split at h
  · simp at h
  · split at h
    case _ hv0 =>
      cases h
      exact Or.inl ⟨hv0, rfl, rfl, rfl⟩
    case _ hv0 =>
      split at h
      · split at h
        · simp at h
        · split at h
          · simp at h
          · cases h
            exact Or.inr ⟨hv0, fun q hq => by simp [hq], rfl, rfl⟩
      · split at h
        · cases h
          exact Or.inr ⟨hv0, fun q hq => by simp [hq], rfl, rfl⟩
        · split at h
          · simp at h
          · split at h
            · simp at h
            · cases h
              exact Or.inr ⟨hv0, fun q hq => by simp [hq], rfl, rfl⟩

theorem locOf_inj (c : RelocConfig) {i j : Nat} (h : c.locOf i = c.locOf j) : i = j := by
  unfold RelocConfig.locOf wordSize at h
  omega

/-- The running `_max_non_null_offset` produced by scanning the offsets `l`
against the initial bitmap `bits` and buffer `mem`, starting from `m0`. -/
def maxAfter (c : RelocConfig) (bits : List Bool) (mem : Nat → Nat) :
    Nat → List Nat → Nat
  | m0, [] => m0
  | m0, i :: rest =>
    maxAfter c bits mem
      (if bits.getD i false = true ∧ mem (c.locOf i) ≠ 0 then i else m0) rest

theorem maxAfter_congr (c : RelocConfig) (b₁ b₂ : List Bool) (m₁ m₂ : Nat → Nat) :
    ∀ (l : List Nat) (m0 : Nat),
      (∀ i ∈ l, b₁.getD i false = b₂.getD i false ∧ m₁ (c.locOf i) = m₂ (c.locOf i)) →
      maxAfter c b₁ m₁ m0 l = maxAfter c b₂ m₂ m0 l := by
  intro l
  induction l with
  | nil => intro m0 _; rfl
  | cons hd tl ih =>
    intro m0 hagree
    obtain ⟨hb, hm⟩ := hagree hd (List.mem_cons_self hd tl)
    simp only [maxAfter, hb, hm]
    exact ih _ (fun i hi => hagree i (List.mem_cons_of_mem hd hi))

theorem maxAfter_no_survivor (c : RelocConfig) (bits : List Bool) (mem : Nat → Nat) :
    ∀ (l : List Nat) (m0 : Nat),
      (∀ i ∈ l, ¬(bits.getD i false = true ∧ mem (c.locOf i) ≠ 0)) →
      maxAfter c bits mem m0 l = m0 := by
  intro l
  induction l with
  | nil => intro m0 _; rfl
  | cons hd tl ih =>
    intro m0 hno
    simp only [maxAfter, if_neg (hno hd (List.mem_cons_self hd tl))]
    exact ih m0 (fun i hi => hno i (List.mem_cons_of_mem hd hi))

theorem maxAfter_highest (c : RelocConfig) (bits : List Bool) (mem : Nat → Nat) (M : Nat)
    (hM : bits.getD M false = true ∧ mem (c.locOf M) ≠ 0)
    (hbound : ∀ i, bits.getD i false = true → mem (c.locOf i) ≠ 0 → i ≤ M) :
    ∀ (m a m0 : Nat), a ≤ M → M < a + m →
      maxAfter c bits mem m0 (List.range' a m) = M := by
  intro m
  induction m with
  | zero => intro a m0 h1 h2; omega
  | succ n ih =>
    intro a m0 h1 h2
    rw [List.range'_succ]
    by_cases ha : a = M
    · subst ha
      simp only [maxAfter, if_pos hM]
      apply maxAfter_no_survivor
      intro i hi hcon
      have hiM := hbound i hcon.1 hcon.2
      rw [List.mem_range'_1] at hi
      omega
    · simp only [maxAfter]
      exact ih (a + 1) _ (by omega) (by omega)

/-- The inductive heart of pass 2: running `iterate` over the ascending index
range `[a, a + m)` preserves the bitmap's length and everything outside the
range, clears exactly the marked-but-null bits, keeps the marked non-null
bits, touches memory only at covered pointer locations, and leaves
`_max_non_null_offset` equal to the scan of the processed range. -/
theorem iterate_range'_spec (c : RelocConfig) :
    ∀ (m a : Nat) (st st' : PtrmapState),
      RelocateBufferToRequested.iterate c (List.range' a m) st = Except.ok st' →
      st'.bits.length = st.bits.length ∧
      (∀ q, (∀ i, a ≤ i → i < a + m → q = c.locOf i →
          ¬(st.bits.getD i false = true ∧ st.mem (c.locOf i) ≠ 0)) →
        st'.mem q = st.mem q) ∧
      (∀ i, i < a ∨ a + m ≤ i → st'.bits.getD i false = st.bits.getD i false) ∧
      (∀ i, a ≤ i → i < a + m → st.bits.getD i false = true →
        st.mem (c.locOf i) = 0 → st'.bits.getD i false = false) ∧
      (∀ i, a ≤ i → i < a + m → st.bits.getD i false = true →
        st.mem (c.locOf i) ≠ 0 → st'.bits.getD i false = true) ∧
      st'.max_non_null_offset
        = maxAfter c st.bits st.mem st.max_non_null_offset (List.range' a m) := by
  intro m
  induction m with
  | zero =>
    intro a st st' h
    rw [show List.range' a 0 = [] from rfl] at h
    simp only [RelocateBufferToRequested.iterate] at h
    cases h
    refine ⟨rfl, fun q _ => rfl, fun i _ => rfl, ?_, ?_, rfl⟩
    · intro i h1 h2; omega
    · intro i h1 h2; omega
  | succ n ih =>
    intro a st st' h
    rw [List.range'_succ] at h
    simp only [RelocateBufferToRequested.iterate] at h
    by_cases hbit : st.bits.getD a false = true
    · rw [if_pos hbit] at h
      split at h
      · simp at h
      case _ st₁ hdb =>
        obtain ⟨ihl, ihm, ihout, ihnull, ihsurv, ihmax⟩ := ih (a + 1) st₁ st' h
        rcases do_bit_ok_inv c st st₁ a hdb with ⟨hv0, hmem, hbits, hmax⟩ |
          ⟨hvne, hmem, hbits, hmax⟩
        · -- the stored pointer was null: the bit at a is cleared
          have hlen₁ : st₁.bits.length = st.bits.length := by
            rw [hbits]; exact List.length_set st.bits a false
          refine ⟨by rw [ihl, hlen₁], ?_, ?_, ?_, ?_, ?_⟩
          · intro q hq
            have hq₁ : ∀ i, a + 1 ≤ i → i < a + 1 + n → q = c.locOf i →
                ¬(st₁.bits.getD i false = true ∧ st₁.mem (c.locOf i) ≠ 0) := by
              intro i hi1 hi2 hqi hcon
              refine hq i (by omega) (by omega) hqi ?_
              rw [hbits, getD_set_ne _ _ _ _ _ (by omega : i ≠ a), hmem] at hcon
              exact hcon
            rw [ihm q hq₁, hmem]
          · intro i hi
            rw [ihout i (by omega), hbits, getD_set_ne _ _ _ _ _ (by omega)]
          · intro i h1 h2 hbi hvi
            by_cases hia : i = a
            · subst hia
              rw [ihout i (by omega), hbits, getD_set_self]
              split <;> rfl
            · have hbi₁ : st₁.bits.getD i false = true := by
                rw [hbits, getD_set_ne _ _ _ _ _ hia]; exact hbi
              have hvi₁ : st₁.mem (c.locOf i) = 0 := by rw [hmem]; exact hvi
              exact ihnull i (by omega) (by omega) hbi₁ hvi₁
          · intro i h1 h2 hbi hvi
            by_cases hia : i = a
            · subst hia; exact absurd hv0 hvi
            · have hbi₁ : st₁.bits.getD i false = true := by
                rw [hbits, getD_set_ne _ _ _ _ _ hia]; exact hbi
              have hvi₁ : st₁.mem (c.locOf i) ≠ 0 := by rw [hmem]; exact hvi
              exact ihsurv i (by omega) (by omega) hbi₁ hvi₁
          · rw [ihmax, hmax, hmem, hbits, List.range'_succ]
            simp only [maxAfter]
            rw [if_neg (fun hcon => hcon.2 hv0)]
            apply maxAfter_congr
            intro i hi
            rw [List.mem_range'_1] at hi
            exact ⟨getD_set_ne _ _ _ _ _ (by omega), rfl⟩
        · -- the stored pointer was non-null: the word is relocated in place
          refine ⟨by rw [ihl, hbits], ?_, ?_, ?_, ?_, ?_⟩
          · intro q hq
            have hqa : q ≠ c.locOf a := by
              intro hqe
              exact hq a (by omega) (by omega) hqe ⟨hbit, hvne⟩
            have hq₁ : ∀ i, a + 1 ≤ i → i < a + 1 + n → q = c.locOf i →
                ¬(st₁.bits.getD i false = true ∧ st₁.mem (c.locOf i) ≠ 0) := by
              intro i hi1 hi2 hqi hcon
              refine hq i (by omega) (by omega) hqi ?_
              rw [hbits,
                hmem (c.locOf i) (fun he => (by omega : ¬(i = a)) (locOf_inj c he))] at hcon
              exact hcon
            rw [ihm q hq₁, hmem q hqa]
          · intro i hi
            rw [ihout i (by omega), hbits]
          · intro i h1 h2 hbi hvi
            by_cases hia : i = a
            · subst hia; exact absurd hvi hvne
            · have hbi₁ : st₁.bits.getD i false = true := by rw [hbits]; exact hbi
              have hvi₁ : st₁.mem (c.locOf i) = 0 := by
                rw [hmem _ (fun he => hia (locOf_inj c he))]; exact hvi
              exact ihnull i (by omega) (by omega) hbi₁ hvi₁
          · intro i h1 h2 hbi hvi
            by_cases hia : i = a
            · subst hia
              rw [ihout i (by omega), hbits]
              exact hbi
            · have hbi₁ : st₁.bits.getD i false = true := by rw [hbits]; exact hbi
              have hvi₁ : st₁.mem (c.locOf i) ≠ 0 := by
                rw [hmem _ (fun he => hia (locOf_inj c he))]; exact hvi
              exact ihsurv i (by omega) (by omega) hbi₁ hvi₁
          · rw [ihmax, hmax, hbits, List.range'_succ]
            simp only [maxAfter]
            rw [if_pos ⟨hbit, hvne⟩]
            apply maxAfter_congr
            intro i hi
            rw [List.mem_range'_1] at hi
            refine ⟨rfl, hmem _ (fun he => ?_)⟩
            have := locOf_inj c he
            omega
    · rw [if_neg hbit] at h
      obtain ⟨ihl, ihm, ihout, ihnull, ihsurv, ihmax⟩ := ih (a + 1) st st' h
      refine ⟨ihl, ?_, ?_, ?_, ?_, ?_⟩
      · intro q hq
        exact ihm q (fun i hi1 hi2 hqi hcon => hq i (by omega) (by omega) hqi hcon)
      · intro i hi
        by_cases hia : i = a
        · subst hia; exact ihout i (by omega)
        · exact ihout i (by omega)
      · intro i h1 h2 hbi hvi
        by_cases hia : i = a
        · subst hia; exact absurd hbi hbit
        · exact ihnull i (by omega) (by omega) hbi hvi
      · intro i h1 h2 hbi hvi
        by_cases hia : i = a
        · subst hia; exact absurd hbi hbit
        · exact ihsurv i (by omega) (by omega) hbi hvi
      · rw [ihmax, List.range'_succ]
        simp only [maxAfter]
        rw [if_neg (fun hcon => hbit hcon.1)]

/-- C5: during whole-buffer relocation, every marked bitmap position whose
field holds a null pointer has its bit cleared while the field itself is not
adjusted (its stored value is unchanged by the whole scan), marked non-null
positions keep their bit, and after the scan the bitmap's logical length is
compacted to `highest_surviving_set_bit + 1` (given that at least one marked
non-null field exists, `M` being the highest such position). -/
theorem c5_null_bit_clearing_and_compaction (c : RelocConfig) (st st' : PtrmapState)
    (M : Nat)
    (hdoit : RelocateBufferToRequested.doit c st = Except.ok st')
    (hM : st.bits.getD M false = true ∧ st.mem (c.locOf M) ≠ 0)
    (hMmax : ∀ i, st.bits.getD i false = true → st.mem (c.locOf i) ≠ 0 → i ≤ M) :
    st'.bits.length = M + 1 ∧
    (∀ i, st.bits.getD i false = true → st.mem (c.locOf i) = 0 →
      st'.bits.getD i false = false ∧ st'.mem (c.locOf i) = st.mem (c.locOf i)) ∧
    (∀ i, st.bits.getD i false = true → st.mem (c.locOf i) ≠ 0 →
      st'.bits.getD i false = true) := by
  simp only [RelocateBufferToRequested.doit] at hdoit
  split at hdoit
  · simp at hdoit
  case _ st₁ hiter =>
    cases hdoit
    rw [List.range_eq_range'] at hiter
    obtain ⟨ihl, ihm, ihout, ihnull, ihsurv, ihmax⟩ :=
      iterate_range'_spec c st.bits.length 0 st st₁ hiter
    have hMlt : M < st.bits.length := getD_true_lt_length _ _ hM.1
    have hmax : st₁.max_non_null_offset = M := by
      rw [ihmax]
      exact maxAfter_highest c st.bits st.mem M hM hMmax st.bits.length 0
        st.max_non_null_offset (by omega) (by omega)
    refine ⟨?_, ?_, ?_⟩
    · simp only [ArchivePtrMarker.compact, List.length_take, hmax, ihl]
      omega
    · intro i hbi hvi
      have hilen : i < st.bits.length := getD_true_lt_length _ _ hbi
      have h1 : st₁.bits.getD i false = false :=
        ihnull i (by omega) (by omega) hbi hvi
      constructor
      · simp only [ArchivePtrMarker.compact]
        rw [getD_take]
        split
        · exact h1
        · rfl
      · have hq : ∀ j, 0 ≤ j → j < 0 + st.bits.length → c.locOf i = c.locOf j →
            ¬(st.bits.getD j false = true ∧ st.mem (c.locOf j) ≠ 0) := by
          intro j _ _ hij hcon
          have hji : i = j := locOf_inj c hij
          subst hji
          exact hcon.2 hvi
        have hfield := ihm (c.locOf i) hq
        simpa [ArchivePtrMarker.compact] using hfield
    · intro i hbi hvi
      have hilen : i < st.bits.length := getD_true_lt_length _ _ hbi
      have hile : i ≤ M := hMmax i hbi hvi
      have h1 : st₁.bits.getD i false = true :=
        ihsurv i (by omega) (by omega) hbi hvi
      simp only [ArchivePtrMarker.compact]
      rw [getD_take, hmax, if_pos (by omega)]
      exact h1

/-- The relocated-and-compacted state reached from `stPW` under `cW`. -/
def stQW : PtrmapState :=
  { mem := fun a => if a = cW.locOf 0
      then addDelta (stPW.mem (cW.locOf 0)) cW.buffer_to_requested_delta
      else stPW.mem a,
    bits := [true], max_non_null_offset := 0 }

theorem c5_null_bit_clearing_and_compaction_witness :
    RelocateBufferToRequested.doit cW stPW = Except.ok stQW ∧
    (stPW.bits.getD 0 false = true ∧ stPW.mem (cW.locOf 0) ≠ 0) ∧
    (stQW.bits.length = 0 + 1 ∧
      (∀ i, stPW.bits.getD i false = true → stPW.mem (cW.locOf i) = 0 →
        stQW.bits.getD i false = false ∧ stQW.mem (cW.locOf i) = stPW.mem (cW.locOf i)) ∧
      (∀ i, stPW.bits.getD i false = true → stPW.mem (cW.locOf i) ≠ 0 →
        stQW.bits.getD i false = true)) :=
  have hdoit : RelocateBufferToRequested.doit cW stPW = Except.ok stQW := by rfl
  have hmm : ∀ i, stPW.bits.getD i false = true → stPW.mem (cW.locOf i) ≠ 0 → i ≤ 0 := by
    intro i h1 _
    match i with
    | 0 => exact Nat.le_refl 0
    | n + 1 => simp [stPW] at h1
  ⟨hdoit, ⟨by decide, by decide⟩,
   c5_null_bit_clearing_and_compaction cW stPW stQW 0 hdoit ⟨by decide, by decide⟩ hmm⟩

end ArchiveBuilderModel
